import Mathlib

/-!
Shallow embedding of the live stat-ledger engine of the Hoopstats backend
(src/backend/server.py): the in-memory state transition performed by the
handlers record_stat, adjust_stat, undo_last_stat, undo_specific_stat,
delete_shot and update_shot_location, modelled as pure functions over a
GameState value.  The surrounding store/auth plumbing is out of scope; the
injected clock is dropped (timestamps play no role in the logic) and the
injected identifier generator is modelled as a fresh-id counter carried in
the state.
-/

namespace Hoopstats

/-- Mirrors the `HTTPException` failures raised by the engine handlers
(404 "Player not in this game", 400 "No stats to undo",
400 "Invalid entry index", 404 "Shot not found"). -/
inductive EngineError where
  | PlayerNotInGame
  | NothingToUndo
  | InvalidIndex
  | ShotNotFound
  deriving Repr, DecidableEq

/-- Mirrors `class PlayerStats(BaseModel)` in server.py (all counters
default 0).  Counters are `Int`: `plus_minus` is signed by design and
`record_stat` adds an unconstrained signed `value` to the simple counters. -/
@[ext]
structure PlayerStats where
  points : Int := 0
  rebounds : Int := 0
  offensive_rebounds : Int := 0
  defensive_rebounds : Int := 0
  assists : Int := 0
  steals : Int := 0
  blocks : Int := 0
  turnovers : Int := 0
  fouls : Int := 0
  fg_made : Int := 0
  fg_attempted : Int := 0
  three_pt_made : Int := 0
  three_pt_attempted : Int := 0
  ft_made : Int := 0
  ft_attempted : Int := 0
  plus_minus : Int := 0
  minutes_played : Int := 0
  deriving Repr, DecidableEq

/-- Mirrors the shot dicts appended by `record_stat`
(keys id, x, y, made, shot_type, period; timestamp dropped). -/
structure Shot where
  id : Nat
  x : Rat
  y : Rat
  made : Bool
  shot_type : String
  period : Int
  deriving Repr, DecidableEq

/-- Mirrors the per-player `stat_events` dicts appended by `record_stat`
(keys id, stat_type, value, period; timestamp dropped). -/
structure StatEventRec where
  id : Nat
  stat_type : String
  value : Int
  period : Int
  deriving Repr, DecidableEq

/-- Mirrors the `stat_history` entries appended by `record_stat`
(keys player_id, stat_type, value, shot_id; timestamp dropped;
`stat_event_id` is read by `undo_specific_stat` but never written by
`record_stat`, so it is carried as an option that `record_stat` leaves
absent). -/
structure HistoryEntry where
  player_id : String
  stat_type : String
  value : Int
  shot_id : Option Nat
  stat_event_id : Option Nat
  deriving Repr, DecidableEq

/-- Mirrors `class GamePlayerStats(BaseModel)`. -/
structure GamePlayerStats where
  player_id : String
  player_name : String
  stats : PlayerStats := {}
  shots : List Shot := []
  stat_events : List StatEventRec := []
  deriving Repr, DecidableEq

/-- The slice of the game document the engine reads and writes:
`player_stats`, `stat_history`, `our_score`, `current_period`, plus the
injected identifier generator modelled as a counter. -/
structure GameState where
  player_stats : List GamePlayerStats
  stat_history : List HistoryEntry
  our_score : Int
  current_period : Int := 1
  next_id : Nat := 0
  deriving Repr, DecidableEq

/-- Mirrors `class StatUpdate(BaseModel)` (shot_location is an optional
x/y pair; `value` defaults to 1). -/
structure StatUpdate where
  player_id : String
  stat_type : String
  value : Int := 1
  shot_location : Option (Rat × Rat) := none
  deriving Repr, DecidableEq

/-- `sum(ps.get("stats", {}).get("points", 0) for ps in player_stats)`. -/
def sumPoints (l : List GamePlayerStats) : Int :=
  (l.map (fun ps => ps.stats.points)).sum

/-- `stats[t] = stats.get(t, 0) + v` for the simple-counter keys handled
by `record_stat`'s list branch. -/
def addCounter (t : String) (v : Int) (s : PlayerStats) : PlayerStats :=
  if t = "rebounds" then { s with rebounds := s.rebounds + v }
  else if t = "offensive_rebounds" then
    { s with offensive_rebounds := s.offensive_rebounds + v }
  else if t = "defensive_rebounds" then
    { s with defensive_rebounds := s.defensive_rebounds + v }
  else if t = "assists" then { s with assists := s.assists + v }
  else if t = "steals" then { s with steals := s.steals + v }
  else if t = "blocks" then { s with blocks := s.blocks + v }
  else if t = "turnovers" then { s with turnovers := s.turnovers + v }
  else if t = "fouls" then { s with fouls := s.fouls + v }
  else s

/-- The box-score counter updates of `record_stat`'s if/elif chain, branch
by branch (an unrecognized stat type falls through with no change). -/
def applyStats (t : String) (v : Int) (s : PlayerStats) : PlayerStats :=
  if t = "points_2" then
    { s with points := s.points + 2,
             fg_made := s.fg_made + 1,
             fg_attempted := s.fg_attempted + 1 }
  else if t = "points_3" then
    { s with points := s.points + 3,
             three_pt_made := s.three_pt_made + 1,
             three_pt_attempted := s.three_pt_attempted + 1,
             fg_made := s.fg_made + 1,
             fg_attempted := s.fg_attempted + 1 }
  else if t = "ft_made" then
    { s with points := s.points + 1,
             ft_made := s.ft_made + 1,
             ft_attempted := s.ft_attempted + 1 }
  else if t = "ft_missed" then
    { s with ft_attempted := s.ft_attempted + 1 }
  else if t = "miss_2" then
    { s with fg_attempted := s.fg_attempted + 1 }
  else if t = "miss_3" then
    { s with three_pt_attempted := s.three_pt_attempted + 1,
             fg_attempted := s.fg_attempted + 1 }
  else if t ∈ (["rebounds", "offensive_rebounds", "defensive_rebounds",
      "assists", "steals", "blocks", "turnovers", "fouls"] :
      List String) then
    let s := addCounter t v s
    if t ∈ (["offensive_rebounds", "defensive_rebounds"] :
        List String) then
      { s with rebounds := s.rebounds + v }
    else s
  else if t = "plus_minus" then
    { s with plus_minus := s.plus_minus + v }
  else if t = "minutes" then
    { s with minutes_played := s.minutes_played + v }
  else s

/-- The shot record `record_stat` appends: only the four shot branches
append one, and only when a `shot_location` was sent. -/
def shotCreated (stat : StatUpdate) (period : Int) (nid : Nat) :
    Option Shot :=
  match stat.shot_location with
  | none => none
  | some loc =>
    if stat.stat_type = "points_2" then
      some ⟨nid, loc.1, loc.2, true, "2pt", period⟩
    else if stat.stat_type = "points_3" then
      some ⟨nid, loc.1, loc.2, true, "3pt", period⟩
    else if stat.stat_type = "miss_2" then
      some ⟨nid, loc.1, loc.2, false, "2pt", period⟩
    else if stat.stat_type = "miss_3" then
      some ⟨nid, loc.1, loc.2, false, "3pt", period⟩
    else none

/-- The per-player stat-event record `record_stat` appends: the two
free-throw branches and the simple-counter branch append one (always,
independent of shot_location). -/
def eventCreated (stat : StatUpdate) (period : Int) (nid : Nat) :
    Option StatEventRec :=
  if stat.stat_type = "ft_made" then some ⟨nid, "ft_made", 1, period⟩
  else if stat.stat_type = "ft_missed" then
    some ⟨nid, "ft_missed", 1, period⟩
  else if stat.stat_type ∈ (["rebounds", "offensive_rebounds",
      "defensive_rebounds", "assists", "steals", "blocks", "turnovers",
      "fouls"] : List String) then
    some ⟨nid, stat.stat_type, stat.value, period⟩
  else none

/-- The per-player body of the matched branch of `record_stat`'s player
loop: update the box-score counters, append the shot or stat-event record
of the branch taken (these are mutually exclusive: shot kinds and event
kinds are disjoint), and report the created shot id (for the history
entry) together with the advanced id counter (one uuid is drawn exactly
when a shot or event record is created). -/
def applyStatToPlayer (stat : StatUpdate) (period : Int) (nid : Nat)
    (ps : GamePlayerStats) : GamePlayerStats × Option Nat × Nat :=
  let stats := applyStats stat.stat_type stat.value ps.stats
  match shotCreated stat period nid with
  | some shot =>
    ({ ps with stats := stats, shots := ps.shots ++ [shot] },
     some shot.id, nid + 1)
  | none =>
    match eventCreated stat period nid with
    | some ev =>
      ({ ps with stats := stats, stat_events := ps.stat_events ++ [ev] },
       none, nid + 1)
    | none => ({ ps with stats := stats }, none, nid)

/-- `record_stat`'s `for ps in player_stats` loop: transform the first
entry whose player_id matches (then `break`), or report that no player
was found. -/
def recordLoop (stat : StatUpdate) (period : Int) (nid : Nat) :
    List GamePlayerStats → Option (List GamePlayerStats × Option Nat × Nat)
  | [] => none
  | ps :: rest =>
    if ps.player_id = stat.player_id then
      let r := applyStatToPlayer stat period nid ps
      some (r.1 :: rest, r.2.1, r.2.2)
    else
      match recordLoop stat period nid rest with
      | none => none
      | some (rest2, sid, nid2) => some (ps :: rest2, sid, nid2)

/-- `record_stat` (POST /games/.../stats): apply the stat to the first
matching roster player, append a `stat_history` entry, recompute
`our_score` as the sum of all players' points; 404 Player-not-in-this-game
when the player loop finds no match (nothing is written in that case). -/
def record_stat (g : GameState) (stat : StatUpdate) :
    Except EngineError GameState :=
  match recordLoop stat g.current_period g.next_id g.player_stats with
  | none => .error .PlayerNotInGame
  | some (pstats, sid, nid2) =>
    let entry : HistoryEntry :=
      ⟨stat.player_id, stat.stat_type, stat.value, sid, none⟩
    .ok { g with player_stats := pstats,
                 stat_history := g.stat_history ++ [entry],
                 our_score := sumPoints pstats,
                 next_id := nid2 }

/-- `stats[t] = max(0, stats.get(t, 0) - 1)` for the simple-counter keys
handled by `undo_last_stat`'s list branch. -/
def subOneCounter (t : String) (s : PlayerStats) : PlayerStats :=
  if t = "rebounds" then { s with rebounds := max 0 (s.rebounds - 1) }
  else if t = "offensive_rebounds" then
    { s with offensive_rebounds := max 0 (s.offensive_rebounds - 1) }
  else if t = "defensive_rebounds" then
    { s with defensive_rebounds := max 0 (s.defensive_rebounds - 1) }
  else if t = "assists" then { s with assists := max 0 (s.assists - 1) }
  else if t = "steals" then { s with steals := max 0 (s.steals - 1) }
  else if t = "blocks" then { s with blocks := max 0 (s.blocks - 1) }
  else if t = "turnovers" then
    { s with turnovers := max 0 (s.turnovers - 1) }
  else if t = "fouls" then { s with fouls := max 0 (s.fouls - 1) }
  else s

/-- The per-stat-kind inverse applied by `undo_last_stat` to the owning
player's box score (note: the simple-counter branch subtracts 1, not the
recorded value, and there is no branch for plus_minus or minutes). -/
def undoEntryStats (stat_type : String) (s : PlayerStats) : PlayerStats :=
  if stat_type = "points_2" then
    { s with points := max 0 (s.points - 2),
             fg_made := max 0 (s.fg_made - 1),
             fg_attempted := max 0 (s.fg_attempted - 1) }
  else if stat_type = "points_3" then
    { s with points := max 0 (s.points - 3),
             three_pt_made := max 0 (s.three_pt_made - 1),
             three_pt_attempted := max 0 (s.three_pt_attempted - 1),
             fg_made := max 0 (s.fg_made - 1),
             fg_attempted := max 0 (s.fg_attempted - 1) }
  else if stat_type = "ft_made" then
    { s with points := max 0 (s.points - 1),
             ft_made := max 0 (s.ft_made - 1),
             ft_attempted := max 0 (s.ft_attempted - 1) }
  else if stat_type = "ft_missed" then
    { s with ft_attempted := max 0 (s.ft_attempted - 1) }
  else if stat_type = "miss_2" then
    { s with fg_attempted := max 0 (s.fg_attempted - 1) }
  else if stat_type = "miss_3" then
    { s with three_pt_attempted := max 0 (s.three_pt_attempted - 1),
             fg_attempted := max 0 (s.fg_attempted - 1) }
  else if stat_type ∈ (["rebounds", "offensive_rebounds",
      "defensive_rebounds", "assists", "steals", "blocks", "turnovers",
      "fouls"] : List String) then
    let s := subOneCounter stat_type s
    if stat_type ∈ (["offensive_rebounds", "defensive_rebounds"] :
        List String) then
      { s with rebounds := max 0 (s.rebounds - 1) }
    else s
  else s

/-- `undo_last_stat`'s player loop body on the matched player: reverse the
box score and drop the created shot (by id) when the entry recorded one. -/
def undoLastPlayer (last : HistoryEntry) (ps : GamePlayerStats) :
    GamePlayerStats :=
  let stats := undoEntryStats last.stat_type ps.stats
  let shots := match last.shot_id with
    | some sid => ps.shots.filter (fun s => s.id ≠ sid)
    | none => ps.shots
  { ps with stats := stats, shots := shots }

/-- `for ps in player_stats: if match: ...; break` — transform the first
entry with the given player_id, leave everything else; if no entry
matches, the list is returned unchanged (the source raises no error in
that case). -/
def updateFirstPlayer (pid : String)
    (f : GamePlayerStats → GamePlayerStats) :
    List GamePlayerStats → List GamePlayerStats
  | [] => []
  | ps :: rest =>
    if ps.player_id = pid then f ps :: rest
    else ps :: updateFirstPlayer pid f rest

/-- `undo_last_stat` (POST /games/.../stats/undo): 400 No-stats-to-undo on
an empty history, otherwise pop the last entry, reverse it on the owning
player and recompute `our_score`. -/
def undo_last_stat (g : GameState) : Except EngineError GameState :=
  match g.stat_history.getLast? with
  | none => .error .NothingToUndo
  | some last =>
    let pstats := updateFirstPlayer last.player_id (undoLastPlayer last)
      g.player_stats
    .ok { g with player_stats := pstats,
                 stat_history := g.stat_history.dropLast,
                 our_score := sumPoints pstats }

/-- The per-stat-type branch of `adjust_stat` on the matched player's
counters (composite kinds touch the paired attempted counter and points;
clamps are per-field; negative-delta branches clamp, positive-delta
branches do not clamp the derived counters). -/
def adjustStats (t : String) (adj : Int) (s : PlayerStats) : PlayerStats :=
  if t = "points" then { s with points := max 0 (s.points + adj) }
  else if t = "fg_made" then
    let s := { s with fg_made := max 0 (s.fg_made + adj) }
    if adj > 0 then
      { s with fg_attempted := s.fg_attempted + adj,
               points := s.points + 2 * adj }
    else
      { s with fg_attempted := max 0 (s.fg_attempted + adj),
               points := max 0 (s.points + 2 * adj) }
  else if t = "three_pt_made" then
    let s := { s with three_pt_made := max 0 (s.three_pt_made + adj),
                      fg_made := max 0 (s.fg_made + adj) }
    if adj > 0 then
      { s with three_pt_attempted := s.three_pt_attempted + adj,
               fg_attempted := s.fg_attempted + adj,
               points := s.points + 3 * adj }
    else
      { s with three_pt_attempted := max 0 (s.three_pt_attempted + adj),
               fg_attempted := max 0 (s.fg_attempted + adj),
               points := max 0 (s.points + 3 * adj) }
  else if t = "ft_made" then
    let s := { s with ft_made := max 0 (s.ft_made + adj) }
    if adj > 0 then
      { s with ft_attempted := s.ft_attempted + adj,
               points := s.points + adj }
    else
      { s with ft_attempted := max 0 (s.ft_attempted + adj),
               points := max 0 (s.points + adj) }
  else if t ∈ (["rebounds", "offensive_rebounds", "defensive_rebounds",
      "assists", "steals", "blocks", "turnovers", "fouls"] :
      List String) then
    let s := addClampCounter t adj s
    if t ∈ (["offensive_rebounds", "defensive_rebounds"] : List String) then
      { s with rebounds := max 0 (s.rebounds + adj) }
    else s
  else s
where
  /-- `stats[t] = max(0, stats.get(t, 0) + adj)` for the simple keys. -/
  addClampCounter (t : String) (adj : Int) (s : PlayerStats) :
      PlayerStats :=
    if t = "rebounds" then { s with rebounds := max 0 (s.rebounds + adj) }
    else if t = "offensive_rebounds" then
      { s with offensive_rebounds := max 0 (s.offensive_rebounds + adj) }
    else if t = "defensive_rebounds" then
      { s with defensive_rebounds := max 0 (s.defensive_rebounds + adj) }
    else if t = "assists" then { s with assists := max 0 (s.assists + adj) }
    else if t = "steals" then { s with steals := max 0 (s.steals + adj) }
    else if t = "blocks" then { s with blocks := max 0 (s.blocks + adj) }
    else if t = "turnovers" then
      { s with turnovers := max 0 (s.turnovers + adj) }
    else if t = "fouls" then { s with fouls := max 0 (s.fouls + adj) }
    else s

/-- `adjust_stat` (POST /games/.../stats/adjust): manual correction on the
first matching player, no ledger entry, `our_score` recomputed; 404
Player-not-in-this-game when no player matches (nothing written then). -/
def adjust_stat (g : GameState) (player_id : String) (stat_type : String)
    (adjustment : Int) : Except EngineError GameState :=
  if g.player_stats.any (fun ps => ps.player_id == player_id) then
    let pstats := updateFirstPlayer player_id
      (fun ps => { ps with stats := adjustStats stat_type adjustment ps.stats })
      g.player_stats
    .ok { g with player_stats := pstats, our_score := sumPoints pstats }
  else .error .PlayerNotInGame

/-- `stats[t] = max(0, stats.get(t, 0) - value)` for the simple-counter
keys handled by `undo_specific_stat`. -/
def subValueCounter (t : String) (v : Int) (s : PlayerStats) :
    PlayerStats :=
  if t = "rebounds" then { s with rebounds := max 0 (s.rebounds - v) }
  else if t = "offensive_rebounds" then
    { s with offensive_rebounds := max 0 (s.offensive_rebounds - v) }
  else if t = "defensive_rebounds" then
    { s with defensive_rebounds := max 0 (s.defensive_rebounds - v) }
  else if t = "assists" then { s with assists := max 0 (s.assists - v) }
  else if t = "steals" then { s with steals := max 0 (s.steals - v) }
  else if t = "blocks" then { s with blocks := max 0 (s.blocks - v) }
  else if t = "turnovers" then
    { s with turnovers := max 0 (s.turnovers - v) }
  else if t = "fouls" then { s with fouls := max 0 (s.fouls - v) }
  else s

/-- The per-stat-kind inverse applied by `undo_specific_stat` to the
owning player's box score (note: the simple-counter branches subtract the
recorded `value`, and there is no branch for the plain "rebounds" kind,
unlike `undo_last_stat`). -/
def undoSpecificStats (stat_type : String) (value : Int)
    (s : PlayerStats) : PlayerStats :=
  if stat_type ∈ (["points_2", "miss_2"] : List String) then
    let s := if stat_type = "points_2" then
        { s with points := max 0 (s.points - 2),
                 fg_made := max 0 (s.fg_made - 1) }
      else s
    { s with fg_attempted := max 0 (s.fg_attempted - 1) }
  else if stat_type ∈ (["points_3", "miss_3"] : List String) then
    let s := if stat_type = "points_3" then
        { s with points := max 0 (s.points - 3),
                 fg_made := max 0 (s.fg_made - 1),
                 three_pt_made := max 0 (s.three_pt_made - 1) }
      else s
    { s with fg_attempted := max 0 (s.fg_attempted - 1),
             three_pt_attempted := max 0 (s.three_pt_attempted - 1) }
  else if stat_type = "ft_made" then
    { s with points := max 0 (s.points - 1),
             ft_made := max 0 (s.ft_made - 1),
             ft_attempted := max 0 (s.ft_attempted - 1) }
  else if stat_type = "ft_missed" then
    { s with ft_attempted := max 0 (s.ft_attempted - 1) }
  else if stat_type ∈ (["offensive_rebounds", "defensive_rebounds"] :
      List String) then
    let s := subValueCounter stat_type value s
    { s with rebounds := max 0 (s.rebounds - value) }
  else if stat_type ∈ (["assists", "steals", "blocks", "turnovers",
      "fouls"] : List String) then
    subValueCounter stat_type value s
  else s

/-- `undo_specific_stat`'s player loop body on the matched player: shot
removal happens only inside the four shot branches; the stat-event
removal guard is present in the source but the entry's stat_event_id is
never populated by `record_stat`. -/
def undoSpecificPlayer (entry : HistoryEntry) (ps : GamePlayerStats) :
    GamePlayerStats :=
  let stats := undoSpecificStats entry.stat_type entry.value ps.stats
  let shots := if entry.stat_type ∈ (["points_2", "miss_2", "points_3",
      "miss_3"] : List String) then
    match entry.shot_id with
    | some sid => ps.shots.filter (fun s => s.id ≠ sid)
    | none => ps.shots
  else ps.shots
  let evs := match entry.stat_event_id with
    | some eid => ps.stat_events.filter (fun e => e.id ≠ eid)
    | none => ps.stat_events
  { ps with stats := stats, shots := shots, stat_events := evs }

/-- Placeholder entry for the (in-bounds-guarded) history lookup. -/
def defaultEntry : HistoryEntry := ⟨"", "", 1, none, none⟩

/-- `undo_specific_stat` (POST /games/.../undo/idx): 400 Invalid-entry-index
outside `[0, len)`, otherwise reverse the entry at storage position
`len - 1 - idx` (display order is most-recent-first), remove it from the
history and recompute `our_score`. -/
def undo_specific_stat (g : GameState) (entry_index : Int) :
    Except EngineError GameState :=
  if entry_index < 0 ∨ (g.stat_history.length : Int) ≤ entry_index then
    .error .InvalidIndex
  else
    let actual : Nat := g.stat_history.length - 1 - entry_index.toNat
    let entry := g.stat_history.getD actual defaultEntry
    let pstats := updateFirstPlayer entry.player_id
      (undoSpecificPlayer entry) g.player_stats
    .ok { g with player_stats := pstats,
                 stat_history := g.stat_history.eraseIdx actual,
                 our_score := sumPoints pstats }

/-- The counter reversal `delete_shot` derives from the shot record
itself (shot kind and made flag). -/
def deleteShotStats (shot : Shot) (s : PlayerStats) : PlayerStats :=
  if shot.shot_type = "2pt" then
    let s := { s with fg_attempted := max 0 (s.fg_attempted - 1) }
    if shot.made then
      { s with fg_made := max 0 (s.fg_made - 1),
               points := max 0 (s.points - 2) }
    else s
  else if shot.shot_type = "3pt" then
    let s := { s with
      three_pt_attempted := max 0 (s.three_pt_attempted - 1),
      fg_attempted := max 0 (s.fg_attempted - 1) }
    if shot.made then
      { s with three_pt_made := max 0 (s.three_pt_made - 1),
               fg_made := max 0 (s.fg_made - 1),
               points := max 0 (s.points - 3) }
    else s
  else s

/-- Placeholder shot for the (in-bounds-guarded) shot lookup. -/
def defaultShot : Shot := ⟨0, 0, 0, false, "", 1⟩

/-- `delete_shot`'s player loop: 404 Shot-not-found on an out-of-range
index for the matched player; when no player matches, the loop just falls
through and the handler still succeeds. -/
def deleteShotLoop (player_id : String) (shot_index : Int) :
    List GamePlayerStats → Except EngineError (List GamePlayerStats)
  | [] => .ok []
  | ps :: rest =>
    if ps.player_id = player_id then
      if shot_index < 0 ∨ (ps.shots.length : Int) ≤ shot_index then
        .error .ShotNotFound
      else
        let shot := ps.shots.getD shot_index.toNat defaultShot
        .ok ({ ps with stats := deleteShotStats shot ps.stats,
                       shots := ps.shots.eraseIdx shot_index.toNat } :: rest)
    else
      match deleteShotLoop player_id shot_index rest with
      | .error e => .error e
      | .ok rest2 => .ok (ps :: rest2)

/-- `delete_shot` (DELETE /games/.../players/.../shots/idx). -/
def delete_shot (g : GameState) (player_id : String) (shot_index : Int) :
    Except EngineError GameState :=
  match deleteShotLoop player_id shot_index g.player_stats with
  | .error e => .error e
  | .ok pstats =>
    .ok { g with player_stats := pstats, our_score := sumPoints pstats }

/-- `update_shot_location`'s player loop: bounds check then pure x/y
overwrite; silently falls through when no player matches. -/
def moveShotLoop (player_id : String) (shot_index : Int) (x y : Rat) :
    List GamePlayerStats → Except EngineError (List GamePlayerStats)
  | [] => .ok []
  | ps :: rest =>
    if ps.player_id = player_id then
      if shot_index < 0 ∨ (ps.shots.length : Int) ≤ shot_index then
        .error .ShotNotFound
      else
        let old := ps.shots.getD shot_index.toNat defaultShot
        let moved := { old with x := x, y := y }
        .ok ({ ps with shots := ps.shots.set shot_index.toNat moved } :: rest)
    else
      match moveShotLoop player_id shot_index x y rest with
      | .error e => .error e
      | .ok rest2 => .ok (ps :: rest2)

/-- `update_shot_location` (PUT /games/.../players/.../shots/idx): note
that `our_score` and the history are not rewritten by this handler. -/
def update_shot_location (g : GameState) (player_id : String)
    (shot_index : Int) (x y : Rat) : Except EngineError GameState :=
  match moveShotLoop player_id shot_index x y g.player_stats with
  | .error e => .error e
  | .ok pstats => .ok { g with player_stats := pstats }

/-- `create_game`'s construction of the per-player slots: one zeroed
`GamePlayerStats` per roster `(player_id, player_name)` pair. -/
def initGame (roster : List (String × String)) : GameState :=
  { player_stats := roster.map (fun r =>
      { player_id := r.1, player_name := r.2 }),
    stat_history := [],
    our_score := 0,
    current_period := 1,
    next_id := 0 }

/-- One mutating engine request. -/
inductive Op where
  | apply (stat : StatUpdate)
  | adjust (player_id : String) (stat_type : String) (adjustment : Int)
  | undoLast
  | undoAt (entry_index : Int)
  | deleteShot (player_id : String) (shot_index : Int)
  deriving Repr, DecidableEq

/-- Dispatch one request to its handler. -/
def runOp (g : GameState) : Op → Except EngineError GameState
  | .apply s => record_stat g s
  | .adjust pid t d => adjust_stat g pid t d
  | .undoLast => undo_last_stat g
  | .undoAt i => undo_specific_stat g i
  | .deleteShot pid i => delete_shot g pid i

/-- Run a sequence of requests; a failed request leaves the stored game
document untouched and the sequence continues from the old state. -/
def runOps (g : GameState) : List Op → GameState
  | [] => g
  | op :: rest =>
    match runOp g op with
    | .ok g2 => runOps g2 rest
    | .error _ => runOps g rest

deriving instance DecidableEq for Except

/-- The stat kinds `record_stat` recognizes (every other string falls off
the end of its if/elif chain). -/
def knownKinds : List String :=
  ["points_2", "points_3", "ft_made", "ft_missed", "miss_2", "miss_3",
   "rebounds", "offensive_rebounds", "defensive_rebounds", "assists",
   "steals", "blocks", "turnovers", "fouls", "plus_minus", "minutes"]

/-- The clamped-counter part of a box score: every counter except the
deliberately signed `plus_minus`. -/
def nonnegStats (s : PlayerStats) : Prop :=
  0 ≤ s.points ∧ 0 ≤ s.rebounds ∧ 0 ≤ s.offensive_rebounds ∧
  0 ≤ s.defensive_rebounds ∧ 0 ≤ s.assists ∧ 0 ≤ s.steals ∧
  0 ≤ s.blocks ∧ 0 ≤ s.turnovers ∧ 0 ≤ s.fouls ∧ 0 ≤ s.fg_made ∧
  0 ≤ s.fg_attempted ∧ 0 ≤ s.three_pt_made ∧ 0 ≤ s.three_pt_attempted ∧
  0 ≤ s.ft_made ∧ 0 ≤ s.ft_attempted ∧ 0 ≤ s.minutes_played

instance (s : PlayerStats) : Decidable (nonnegStats s) := by
  unfold nonnegStats; infer_instance

/-- Every player's clamped counters are nonnegative. -/
def nonnegGame (g : GameState) : Prop :=
  ∀ ps ∈ g.player_stats, nonnegStats ps.stats

/-- The derived-score invariant: `our_score` is the sum of points. -/
def scoreInv (g : GameState) : Prop :=
  g.our_score = sumPoints g.player_stats

instance (g : GameState) : Decidable (scoreInv g) := by
  unfold scoreInv; infer_instance

instance (g : GameState) : Decidable (nonnegGame g) := by
  unfold nonnegGame; infer_instance

/-- The part of a player entry the box-score claims talk about. -/
def core (ps : GamePlayerStats) : String × PlayerStats :=
  (ps.player_id, ps.stats)

/-- A sequence of `apply` requests, stopping at the first failure. -/
def applyAll (g : GameState) : List StatUpdate → Except EngineError GameState
  | [] => .ok g
  | s :: rest => (record_stat g s).bind (fun g2 => applyAll g2 rest)

/-- `undoLast` iterated n times, stopping at the first failure. -/
def undoN : Nat → GameState → Except EngineError GameState
  | 0, g => .ok g
  | n + 1, g => (undo_last_stat g).bind (undoN n)

/-! Concrete fixtures for counterexamples and witnesses. -/

/-- The spec's two-player roster scenario. -/
def exGame : GameState := initGame [("p1", "P One"), ("p2", "P Two")]

/-- A player entry for p1 with the given box score. -/
def p1With (st : PlayerStats) : GamePlayerStats :=
  { player_id := "p1", player_name := "P One", stats := st }

/-- A zeroed player entry for p2. -/
def p2Zero : GamePlayerStats := { player_id := "p2", player_name := "P Two" }

/-- p1 has two assists, recorded as a single ledger entry of value 2. -/
def gAssists2 : GameState :=
  { player_stats := [p1With { assists := 2 }, p2Zero],
    stat_history := [⟨"p1", "assists", 2, none, none⟩],
    our_score := 0 }

/-- The spec's adjust scenario: p1 with fg_made=1, fg_attempted=1,
points=2. -/
def gAdj : GameState :=
  { player_stats := [p1With { points := 2, fg_made := 1, fg_attempted := 1 }, p2Zero],
    stat_history := [],
    our_score := 2 }

/-! Generic lemmas about the player-loop helpers. -/

theorem sumPoints_append (l1 l2 : List GamePlayerStats) :
    sumPoints (l1 ++ l2) = sumPoints l1 + sumPoints l2 := by
  simp [sumPoints]

theorem sumPoints_cons (ps : GamePlayerStats) (l : List GamePlayerStats) :
    sumPoints (ps :: l) = ps.stats.points + sumPoints l := by
  simp [sumPoints]

theorem sumPoints_eq_of_core {l1 l2 : List GamePlayerStats}
    (h : l1.map core = l2.map core) : sumPoints l1 = sumPoints l2 := by
  induction l1 generalizing l2 with
  | nil => cases l2 <;> simp_all [sumPoints]
  | cons a t ih =>
    cases l2 with
    | nil => simp at h
    | cons b t2 =>
      simp only [List.map_cons, List.cons.injEq, core, Prod.mk.injEq] at h
      obtain ⟨⟨_, hstats⟩, htail⟩ := h
      simp [sumPoints_cons, hstats, ih htail]

theorem applyStatToPlayer_player_id (stat : StatUpdate) (period : Int)
    (nid : Nat) (ps : GamePlayerStats) :
    (applyStatToPlayer stat period nid ps).1.player_id = ps.player_id := by
  simp only [applyStatToPlayer]
  cases shotCreated stat period nid with
  | some shot => rfl
  | none => cases eventCreated stat period nid <;> rfl

theorem applyStatToPlayer_stats (stat : StatUpdate) (period : Int)
    (nid : Nat) (ps : GamePlayerStats) :
    (applyStatToPlayer stat period nid ps).1.stats =
      applyStats stat.stat_type stat.value ps.stats := by
  simp only [applyStatToPlayer]
  cases shotCreated stat period nid with
  | some shot => rfl
  | none => cases eventCreated stat period nid <;> rfl

theorem recordLoop_none (stat : StatUpdate) (period : Int) (nid : Nat)
    (l : List GamePlayerStats)
    (h : ∀ ps ∈ l, ps.player_id ≠ stat.player_id) :
    recordLoop stat period nid l = none := by
  induction l with
  | nil => rfl
  | cons a t ih =>
    have ha := h a (List.mem_cons_self a t)
    have ht := ih (fun ps hps => h ps (List.mem_cons_of_mem a hps))
    simp [recordLoop, ha, ht]

theorem recordLoop_decomp (stat : StatUpdate) (period : Int) (nid : Nat)
    (pre post : List GamePlayerStats) (ps : GamePlayerStats)
    (hpre : ∀ q ∈ pre, q.player_id ≠ stat.player_id)
    (hps : ps.player_id = stat.player_id) :
    recordLoop stat period nid (pre ++ ps :: post) =
      some (pre ++ (applyStatToPlayer stat period nid ps).1 :: post,
            (applyStatToPlayer stat period nid ps).2.1,
            (applyStatToPlayer stat period nid ps).2.2) := by
  induction pre with
  | nil => simp [recordLoop, hps]
  | cons a t ih =>
    have ha := hpre a (List.mem_cons_self a t)
    have ht := ih (fun q hq => hpre q (List.mem_cons_of_mem a hq))
    simp [recordLoop, ha, ht]

theorem recordLoop_inv (stat : StatUpdate) (period : Int) (nid : Nat)
    (l l2 : List GamePlayerStats) (sid : Option Nat) (nid2 : Nat)
    (h : recordLoop stat period nid l = some (l2, sid, nid2)) :
    ∃ pre ps post,
      l = pre ++ ps :: post ∧
      (∀ q ∈ pre, q.player_id ≠ stat.player_id) ∧
      ps.player_id = stat.player_id ∧
      l2 = pre ++ (applyStatToPlayer stat period nid ps).1 :: post ∧
      sid = (applyStatToPlayer stat period nid ps).2.1 ∧
      nid2 = (applyStatToPlayer stat period nid ps).2.2 := by
  induction l generalizing l2 with
  | nil => simp [recordLoop] at h
  | cons a t ih =>
    by_cases ha : a.player_id = stat.player_id
    · simp only [recordLoop, ha, if_true, if_pos, Option.some.injEq,
        Prod.mk.injEq] at h
      obtain ⟨h1, h2, h3⟩ := h
      exact ⟨[], a, t, rfl, by simp, ha, by simp [← h1], by simp [← h2],
        by simp [← h3]⟩
    · rcases hrec : recordLoop stat period nid t with _ | ⟨t2, sid', nid2'⟩
      · simp only [recordLoop, ha, if_neg, not_false_iff] at h
        rw [hrec] at h
        simp at h
      · simp only [recordLoop, ha, if_neg, not_false_iff] at h
        rw [hrec] at h
        simp only [Option.some.injEq, Prod.mk.injEq] at h
        obtain ⟨h1, h2, h3⟩ := h
        obtain ⟨pre, ps, post, he1, he2, he3, he4, he5, he6⟩ :=
          ih t2 (by rw [hrec, h2, h3])
        refine ⟨a :: pre, ps, post, by simp [he1], ?_, he3,
          by simp [← h1, he4], h2 ▸ he5, h3 ▸ he6⟩
        intro q hq
        rcases List.mem_cons.mp hq with hqa | hqt
        · rw [hqa]; exact ha
        · exact he2 q hqt

theorem updateFirstPlayer_none (pid : String)
    (f : GamePlayerStats → GamePlayerStats) (l : List GamePlayerStats)
    (h : ∀ ps ∈ l, ps.player_id ≠ pid) :
    updateFirstPlayer pid f l = l := by
  induction l with
  | nil => rfl
  | cons a t ih =>
    have ha := h a (List.mem_cons_self a t)
    have ht := ih (fun ps hps => h ps (List.mem_cons_of_mem a hps))
    simp [updateFirstPlayer, ha, ht]

theorem updateFirstPlayer_decomp (pid : String)
    (f : GamePlayerStats → GamePlayerStats)
    (pre post : List GamePlayerStats) (ps : GamePlayerStats)
    (hpre : ∀ q ∈ pre, q.player_id ≠ pid)
    (hps : ps.player_id = pid) :
    updateFirstPlayer pid f (pre ++ ps :: post) = pre ++ f ps :: post := by
  induction pre with
  | nil => simp [updateFirstPlayer, hps]
  | cons a t ih =>
    have ha := hpre a (List.mem_cons_self a t)
    have ht := ih (fun q hq => hpre q (List.mem_cons_of_mem a hq))
    simp [updateFirstPlayer, ha, ht]

theorem deleteShotLoop_none (pid : String) (i : Int)
    (l : List GamePlayerStats) (h : ∀ ps ∈ l, ps.player_id ≠ pid) :
    deleteShotLoop pid i l = .ok l := by
  induction l with
  | nil => rfl
  | cons a t ih =>
    have ha := h a (List.mem_cons_self a t)
    have ht := ih (fun ps hps => h ps (List.mem_cons_of_mem a hps))
    simp [deleteShotLoop, ha, ht]

theorem moveShotLoop_none (pid : String) (i : Int) (x y : Rat)
    (l : List GamePlayerStats) (h : ∀ ps ∈ l, ps.player_id ≠ pid) :
    moveShotLoop pid i x y l = .ok l := by
  induction l with
  | nil => rfl
  | cons a t ih =>
    have ha := h a (List.mem_cons_self a t)
    have ht := ih (fun ps hps => h ps (List.mem_cons_of_mem a hps))
    simp [moveShotLoop, ha, ht]

/-! Claim theorems. -/

/-- C8: `adjust(p1, "fg_made", delta=-5)` on a player with fg_made=1,
fg_attempted=1, points=2 yields fg_made=0, fg_attempted=0, points=0
(each counter independently floored at 0 after adding the delta), and no
ledger entry is recorded (the history stays empty). -/
theorem C8_adjust_negative_fg_made_clamps :
    adjust_stat gAdj "p1" "fg_made" (-5) =
      .ok { player_stats := [p1With {}, p2Zero],
            stat_history := [],
            our_score := 0 } := by decide

/-- C1 counterexample: one `apply(p1, assists, value=2)` followed by one
`undoLast` does not restore the zeroed initial state — the undo branch
for simple counters subtracts 1, not the recorded value, so p1 is left
with assists=1.  This refutes the round-trip law as stated (which
quantifies over every value). -/
theorem C1_round_trip_cx :
    ((record_stat exGame ⟨"p1", "assists", 2, none⟩).bind
        undo_last_stat).map
        (fun g => (g.player_stats.map (fun ps => ps.stats), g.our_score)) ≠
      .ok (exGame.player_stats.map (fun ps => ps.stats),
           exGame.our_score) := by decide

/-- C4 counterexample: `record_stat`'s simple-counter branch does not
clamp, so a single apply of assists with value -1 on a zeroed game drives
the assists counter to -1 < 0, refuting "no counter other than
plus_minus is ever negative, for any sequence of operations". -/
theorem C4_nonneg_cx :
    ((runOps (initGame [("p1", "P One")])
          [.apply ⟨"p1", "assists", -1, none⟩]).player_stats.map
        (fun ps => ps.stats.assists)) = [-1] ∧ (-1 : Int) < 0 := by decide

/-- C5 counterexample: on a game whose single ledger entry is
(p1, assists, value=2), `undoAt 0` and `undoLast` target the very same
entry (display index 0 remaps to storage index 0), yet they apply
different inverses to the owning player's box score: `undo_specific_stat`
subtracts the recorded value 2 while `undo_last_stat` subtracts 1. -/
theorem C5_same_inverse_cx :
    (undo_specific_stat gAssists2 0).map
        (fun g => g.player_stats.map (fun ps => ps.stats)) ≠
      (undo_last_stat gAssists2).map
        (fun g => g.player_stats.map (fun ps => ps.stats)) := by decide

/-- C6 counterexample: an unrecognized stat kind does not fail with any
error — `record_stat` succeeds, leaves every box score unchanged, and
still appends a ledger entry recording the bogus kind.  (The source has
no InvalidStatKind failure at all.) -/
theorem C6_invalid_kind_cx :
    record_stat exGame ⟨"p1", "bogus_kind", 1, none⟩ =
      .ok { exGame with
            stat_history := [⟨"p1", "bogus_kind", 1, none, none⟩] } := by
  decide

/-- C7: `record_stat` fails with PlayerNotInGame when the player id is
not in the game's roster (and, the operations being functions into
`Except`, no part of the state is mutated on failure); `undo_last_stat`
fails with NothingToUndo exactly when the ledger is empty. -/
theorem C7_validation_failures (g : GameState) (stat : StatUpdate)
    (hnp : ∀ ps ∈ g.player_stats, ps.player_id ≠ stat.player_id) :
    record_stat g stat = .error .PlayerNotInGame ∧
    (undo_last_stat g = .error .NothingToUndo ↔ g.stat_history = []) := by
  constructor
  · unfold record_stat
    rw [recordLoop_none _ _ _ _ hnp]
  · unfold undo_last_stat
    cases hh : g.stat_history.getLast? with
    | none =>
      simp only [List.getLast?_eq_none_iff.mp hh]
    | some e =>
      constructor
      · intro hcontra; cases hcontra
      · intro hnil
        rw [hnil] at hh
        cases hh

/-- C7 witness: the two-player fixture with an unknown player id and an
empty ledger. -/
theorem C7_validation_failures_witness :
    record_stat exGame ⟨"zz", "points_2", 1, none⟩ =
        .error .PlayerNotInGame ∧
      (undo_last_stat exGame = .error .NothingToUndo ↔
        exGame.stat_history = []) :=
  C7_validation_failures exGame ⟨"zz", "points_2", 1, none⟩ (by decide)

/-- C10: `delete_shot` and `update_shot_location` with a player id absent
from player_stats raise no error and leave the game (box scores, shot
lists, team score) unchanged, provided the stored team score satisfied
the derived-score invariant (delete_shot rewrites `our_score` with the
recomputed sum of points). -/
theorem C10_unknown_player_silent (g : GameState) (pid : String)
    (i : Int) (x y : Rat)
    (hnp : ∀ ps ∈ g.player_stats, ps.player_id ≠ pid)
    (hscore : scoreInv g) :
    delete_shot g pid i = .ok g ∧
    update_shot_location g pid i x y = .ok g := by
  constructor
  · unfold delete_shot
    rw [deleteShotLoop_none _ _ _ hnp]
    have : sumPoints g.player_stats = g.our_score := hscore.symm
    simp [this]
  · unfold update_shot_location
    rw [moveShotLoop_none _ _ _ _ _ hnp]

/-- C10 witness: the zeroed two-player fixture and an absent player id. -/
theorem C10_unknown_player_silent_witness :
    delete_shot exGame "zz" 0 = .ok exGame ∧
    update_shot_location exGame "zz" 0 5 5 = .ok exGame :=
  C10_unknown_player_silent exGame "zz" 0 5 5 (by decide) (by decide)

/-- C3: applying made_3 ("points_3") to a roster player (given by its
first-occurrence decomposition of the player list) adds 3 to points and 1
to each of three_pt_made, three_pt_attempted, fg_made and fg_attempted;
with a shot_location one made 3pt shot is appended to that player's shot
list; and the resulting team score is the previous sum of points plus 3. -/
theorem C3_made_three (g : GameState) (pid : String) (v : Int)
    (loc : Rat × Rat) (pre post : List GamePlayerStats)
    (ps : GamePlayerStats)
    (hsplit : g.player_stats = pre ++ ps :: post)
    (hpre : ∀ q ∈ pre, q.player_id ≠ pid)
    (hps : ps.player_id = pid) :
    ∃ g', record_stat g ⟨pid, "points_3", v, some loc⟩ = .ok g' ∧
      g'.player_stats = pre ++
        { ps with
          stats := { ps.stats with
            points := ps.stats.points + 3,
            three_pt_made := ps.stats.three_pt_made + 1,
            three_pt_attempted := ps.stats.three_pt_attempted + 1,
            fg_made := ps.stats.fg_made + 1,
            fg_attempted := ps.stats.fg_attempted + 1 },
          shots := ps.shots ++
            [⟨g.next_id, loc.1, loc.2, true, "3pt", g.current_period⟩] }
        :: post ∧
      g'.our_score = sumPoints g.player_stats + 3 := by
  have happ : applyStatToPlayer ⟨pid, "points_3", v, some loc⟩
      g.current_period g.next_id ps =
      ({ ps with
          stats := { ps.stats with
            points := ps.stats.points + 3,
            three_pt_made := ps.stats.three_pt_made + 1,
            three_pt_attempted := ps.stats.three_pt_attempted + 1,
            fg_made := ps.stats.fg_made + 1,
            fg_attempted := ps.stats.fg_attempted + 1 },
          shots := ps.shots ++
            [⟨g.next_id, loc.1, loc.2, true, "3pt", g.current_period⟩] },
       some g.next_id, g.next_id + 1) := by
    simp [applyStatToPlayer, shotCreated, applyStats]
  unfold record_stat
  rw [hsplit, recordLoop_decomp _ _ _ _ _ _ hpre hps, happ]
  refine ⟨_, rfl, rfl, ?_⟩
  simp only [hsplit, sumPoints_append, sumPoints_cons]
  ring

/-- C3 witness: the spec scenario — roster [p1, p2],
apply(p1, made_3, shot_location=(30,70)). -/
theorem C3_made_three_witness :
    ∃ g', record_stat exGame ⟨"p1", "points_3", 1, some (30, 70)⟩ =
        .ok g' ∧
      g'.player_stats = [] ++
        { p1With {} with
          stats := { ({} : PlayerStats) with
            points := 0 + 3,
            three_pt_made := 0 + 1,
            three_pt_attempted := 0 + 1,
            fg_made := 0 + 1,
            fg_attempted := 0 + 1 },
          shots := ([] : List Shot) ++ [⟨0, 30, 70, true, "3pt", 1⟩] }
        :: [p2Zero] ∧
      g'.our_score = sumPoints exGame.player_stats + 3 :=
  C3_made_three exGame "p1" 1 (30, 70) [] [p2Zero] (p1With {})
    (by decide) (by decide) (by decide)

theorem applyStatToPlayer_player_name (stat : StatUpdate) (period : Int)
    (nid : Nat) (ps : GamePlayerStats) :
    (applyStatToPlayer stat period nid ps).1.player_name =
      ps.player_name := by
  simp only [applyStatToPlayer]
  cases shotCreated stat period nid with
  | some shot => rfl
  | none => cases eventCreated stat period nid <;> rfl

/-- C9 counterexample: `apply(p1, ft_made)` also appends an event to p1's
own per-player stat-event list, a side effect outside the claim's
enumeration "only p's box score, p's shot list, the game-level ledger,
and the team score may change". -/
theorem C9_frame_cx :
    (record_stat exGame ⟨"p1", "ft_made", 1, none⟩).map
        (fun g => g.player_stats.map (fun ps => ps.stat_events)) ≠
      .ok (exGame.player_stats.map (fun ps => ps.stat_events)) := by
  decide

/-- C9 amended: a successful `record_stat` leaves every player entry
other than the target fully unchanged (box score, shot list, stat-event
list) and never changes any player's identity fields or the game's
current period; beyond the target player's own entry (box score, shot
list and stat-event list) only the ledger and the team score change. -/
theorem C9_frame (g : GameState) (stat : StatUpdate) (g' : GameState)
    (h : record_stat g stat = .ok g') :
    List.Forall₂ (fun a b => a.player_id = b.player_id ∧
        a.player_name = b.player_name ∧
        (a.player_id ≠ stat.player_id → b = a))
      g.player_stats g'.player_stats ∧
    g'.current_period = g.current_period := by
  unfold record_stat at h
  rcases hrec : recordLoop stat g.current_period g.next_id g.player_stats
    with _ | ⟨pstats, sid, nid2⟩
  · rw [hrec] at h; cases h
  · rw [hrec] at h
    simp only [Except.ok.injEq] at h
    obtain ⟨pre, ps, post, he1, he2, he3, he4, _, _⟩ :=
      recordLoop_inv _ _ _ _ _ _ _ hrec
    subst h
    refine ⟨?_, rfl⟩
    rw [he1, he4]
    refine List.rel_append ?_ ?_
    · exact List.forall₂_same.mpr
        (fun q _ => ⟨rfl, rfl, fun _ => rfl⟩)
    · refine List.Forall₂.cons
        ⟨(applyStatToPlayer_player_id stat g.current_period g.next_id
            ps).symm,
         (applyStatToPlayer_player_name stat g.current_period g.next_id
            ps).symm,
         fun hne => absurd he3 hne⟩ ?_
      exact List.forall₂_same.mpr (fun q _ => ⟨rfl, rfl, fun _ => rfl⟩)

/-- A concrete successful apply: p1 scores a two. -/
def gPts2 : GameState :=
  { player_stats :=
      [p1With { points := 2, fg_made := 1, fg_attempted := 1 }, p2Zero],
    stat_history := [⟨"p1", "points_2", 1, none, none⟩],
    our_score := 2 }

/-- C9 witness: the two-player fixture, apply(p1, points_2). -/
theorem C9_frame_witness :
    List.Forall₂ (fun a b => a.player_id = b.player_id ∧
        a.player_name = b.player_name ∧
        (a.player_id ≠ "p1" → b = a))
      exGame.player_stats gPts2.player_stats ∧
    gPts2.current_period = exGame.current_period :=
  C9_frame exGame ⟨"p1", "points_2", 1, none⟩ gPts2 (by decide)

theorem moveShotLoop_map_core (pid : String) (i : Int) (x y : Rat)
    (l l2 : List GamePlayerStats)
    (h : moveShotLoop pid i x y l = .ok l2) :
    l2.map core = l.map core := by
  induction l generalizing l2 with
  | nil => cases h; rfl
  | cons a t ih =>
    by_cases ha : a.player_id = pid
    · simp only [moveShotLoop, ha, if_true, if_pos] at h
      split at h
      · cases h
      · cases h; simp [core, ha]
    · simp only [moveShotLoop, ha, if_neg, not_false_iff] at h
      rcases hrec : moveShotLoop pid i x y t with e | t2
      · rw [hrec] at h; cases h
      · rw [hrec] at h
        cases h
        simp [ih t2 hrec]

/-- C2: after every engine operation the stored team score equals the sum
of `points` across all player box scores: record_stat, adjust_stat,
undo_last_stat, undo_specific_stat and delete_shot recompute `our_score`
outright on success, and update_shot_location changes neither any points
counter nor `our_score`, so it preserves the invariant. -/
theorem C2_score_invariant (g : GameState) (hg : scoreInv g) :
    (∀ stat g', record_stat g stat = .ok g' → scoreInv g') ∧
    (∀ pid t d g', adjust_stat g pid t d = .ok g' → scoreInv g') ∧
    (∀ g', undo_last_stat g = .ok g' → scoreInv g') ∧
    (∀ i g', undo_specific_stat g i = .ok g' → scoreInv g') ∧
    (∀ pid i g', delete_shot g pid i = .ok g' → scoreInv g') ∧
    (∀ pid i x y g', update_shot_location g pid i x y = .ok g' →
      scoreInv g') := by
  refine ⟨?_, ?_, ?_, ?_, ?_, ?_⟩
  · intro stat g' h
    unfold record_stat at h
    split at h
    · cases h
    · cases h; rfl
  · intro pid t d g' h
    unfold adjust_stat at h
    split at h
    · cases h; rfl
    · cases h
  · intro g' h
    unfold undo_last_stat at h
    split at h
    · cases h
    · cases h; rfl
  · intro i g' h
    unfold undo_specific_stat at h
    split at h
    · cases h
    · cases h; rfl
  · intro pid i g' h
    unfold delete_shot at h
    split at h
    · cases h
    · cases h; rfl
  · intro pid i x y g' h
    unfold update_shot_location at h
    split at h
    · cases h
    · rename_i pstats hloop
      cases h
      show g.our_score = sumPoints pstats
      rw [hg]
      exact (sumPoints_eq_of_core
        (moveShotLoop_map_core pid i x y _ _ hloop)).symm

/-- C2 witness: the invariant after a concrete successful apply on the
two-player fixture. -/
theorem C2_score_invariant_witness : scoreInv gPts2 :=
  (C2_score_invariant exGame (by decide)).1 ⟨"p1", "points_2", 1, none⟩
    gPts2 (by decide)

theorem not_mem_counterKinds_of_not_known {t : String}
    (hk : t ∉ knownKinds) :
    t ∉ (["rebounds", "offensive_rebounds", "defensive_rebounds",
      "assists", "steals", "blocks", "turnovers", "fouls"] :
      List String) := by
  intro hm
  apply hk
  have hsub : ∀ a ∈ (["rebounds", "offensive_rebounds",
      "defensive_rebounds", "assists", "steals", "blocks", "turnovers",
      "fouls"] : List String), a ∈ knownKinds := by decide
  exact hsub t hm

theorem applyStats_unknown (t : String) (v : Int) (s : PlayerStats)
    (hk : t ∉ knownKinds) : applyStats t v s = s := by
  have h1 : ¬ t = "points_2" := fun he => hk (by rw [he]; decide)
  have h2 : ¬ t = "points_3" := fun he => hk (by rw [he]; decide)
  have h3 : ¬ t = "ft_made" := fun he => hk (by rw [he]; decide)
  have h4 : ¬ t = "ft_missed" := fun he => hk (by rw [he]; decide)
  have h5 : ¬ t = "miss_2" := fun he => hk (by rw [he]; decide)
  have h6 : ¬ t = "miss_3" := fun he => hk (by rw [he]; decide)
  have h7 := not_mem_counterKinds_of_not_known hk
  have h8 : ¬ t = "plus_minus" := fun he => hk (by rw [he]; decide)
  have h9 : ¬ t = "minutes" := fun he => hk (by rw [he]; decide)
  unfold applyStats
  rw [if_neg h1, if_neg h2, if_neg h3, if_neg h4, if_neg h5, if_neg h6,
    if_neg h7, if_neg h8, if_neg h9]

theorem shotCreated_unknown (stat : StatUpdate) (period : Int) (nid : Nat)
    (hk : stat.stat_type ∉ knownKinds) :
    shotCreated stat period nid = none := by
  have h1 : ¬ stat.stat_type = "points_2" :=
    fun he => hk (by rw [he]; decide)
  have h2 : ¬ stat.stat_type = "points_3" :=
    fun he => hk (by rw [he]; decide)
  have h5 : ¬ stat.stat_type = "miss_2" :=
    fun he => hk (by rw [he]; decide)
  have h6 : ¬ stat.stat_type = "miss_3" :=
    fun he => hk (by rw [he]; decide)
  unfold shotCreated
  cases stat.shot_location with
  | none => rfl
  | some loc => simp only [if_neg h1, if_neg h2, if_neg h5, if_neg h6]

theorem eventCreated_unknown (stat : StatUpdate) (period : Int) (nid : Nat)
    (hk : stat.stat_type ∉ knownKinds) :
    eventCreated stat period nid = none := by
  have h3 : ¬ stat.stat_type = "ft_made" :=
    fun he => hk (by rw [he]; decide)
  have h4 : ¬ stat.stat_type = "ft_missed" :=
    fun he => hk (by rw [he]; decide)
  have h7 := not_mem_counterKinds_of_not_known hk
  unfold eventCreated
  rw [if_neg h3, if_neg h4, if_neg h7]

theorem applyStatToPlayer_unknown (stat : StatUpdate) (period : Int)
    (nid : Nat) (ps : GamePlayerStats) (hk : stat.stat_type ∉ knownKinds) :
    applyStatToPlayer stat period nid ps = (ps, none, nid) := by
  unfold applyStatToPlayer
  rw [shotCreated_unknown stat period nid hk,
    eventCreated_unknown stat period nid hk,
    applyStats_unknown _ _ _ hk]

/-- C6 amended: `record_stat` with a stat kind outside the recognized
set, for a roster player, does not fail and is not a no-op on the game
document: it leaves every box score (indeed every player entry) and the
id counter unchanged, recomputes `our_score` from the unchanged points,
but still appends a ledger entry recording the unrecognized kind.  No
InvalidStatKind failure exists in the engine. -/
theorem C6_unknown_kind_accepted (g : GameState) (stat : StatUpdate)
    (pre post : List GamePlayerStats) (ps : GamePlayerStats)
    (hsplit : g.player_stats = pre ++ ps :: post)
    (hpre : ∀ q ∈ pre, q.player_id ≠ stat.player_id)
    (hps : ps.player_id = stat.player_id)
    (hk : stat.stat_type ∉ knownKinds) :
    record_stat g stat = .ok { g with
      stat_history := g.stat_history ++
        [⟨stat.player_id, stat.stat_type, stat.value, none, none⟩],
      our_score := sumPoints g.player_stats } := by
  unfold record_stat
  rw [hsplit, recordLoop_decomp _ _ _ _ _ _ hpre hps,
    applyStatToPlayer_unknown _ _ _ _ hk]

/-- C6 witness: the two-player fixture with the bogus kind and value 7. -/
theorem C6_unknown_kind_accepted_witness :
    record_stat exGame ⟨"p1", "not_a_stat", 7, none⟩ = .ok { exGame with
      stat_history := exGame.stat_history ++
        [⟨"p1", "not_a_stat", 7, none, none⟩],
      our_score := sumPoints exGame.player_stats } :=
  C6_unknown_kind_accepted exGame ⟨"p1", "not_a_stat", 7, none⟩ []
    [p2Zero] (p1With {}) (by decide) (by decide) (by decide) (by decide)

/-- The ledger entries on which `undo_specific_stat` and `undo_last_stat`
apply the same box-score inverse: the six shot/free-throw kinds (fixed
decrements on both sides), and the simple-counter kinds of value 1
(where "subtract the value" and "subtract 1" agree) — excluding the plain
"rebounds" kind, which `undo_specific_stat` does not handle at all. -/
def eligibleEntry (e : HistoryEntry) : Prop :=
  e.stat_type ∈ (["points_2", "points_3", "miss_2", "miss_3", "ft_made",
    "ft_missed"] : List String) ∨
  (e.stat_type ∈ (["offensive_rebounds", "defensive_rebounds", "assists",
    "steals", "blocks", "turnovers", "fouls"] : List String) ∧
   e.value = 1)

instance (e : HistoryEntry) : Decidable (eligibleEntry e) := by
  unfold eligibleEntry; infer_instance

theorem undoSpecificStats_eq_undoEntryStats (t : String) (v : Int)
    (s : PlayerStats)
    (h : t ∈ (["points_2", "points_3", "miss_2", "miss_3", "ft_made",
        "ft_missed"] : List String) ∨
      (t ∈ (["offensive_rebounds", "defensive_rebounds", "assists",
        "steals", "blocks", "turnovers", "fouls"] : List String) ∧
       v = 1)) :
    undoSpecificStats t v s = undoEntryStats t s := by
  rcases h with hm | ⟨hm, hv⟩
  · simp only [List.mem_cons, List.not_mem_nil, or_false] at hm
    rcases hm with h | h | h | h | h | h <;> subst h <;> rfl
  · subst hv
    simp only [List.mem_cons, List.not_mem_nil, or_false] at hm
    rcases hm with h | h | h | h | h | h | h <;> subst h <;> rfl

theorem updateFirstPlayer_map_core_congr (pid : String)
    (f h : GamePlayerStats → GamePlayerStats)
    (hfh : ∀ ps, core (f ps) = core (h ps)) (l : List GamePlayerStats) :
    (updateFirstPlayer pid f l).map core =
      (updateFirstPlayer pid h l).map core := by
  induction l with
  | nil => rfl
  | cons a t ih =>
    by_cases ha : a.player_id = pid
    · simp [updateFirstPlayer, ha, hfh a]
    · simp [updateFirstPlayer, ha, ih]

/-- C5 amended: `undo_specific_stat` fails with InvalidIndex exactly
outside the display range [0, len) and, for an in-range index whose
remapped entry (storage position len-1-i) is an eligible entry — shot or
free-throw kind, or a simple-counter kind of value 1 other than plain
"rebounds" — it removes exactly that entry from the ledger and applies to
the owning player's box score the same per-stat-kind inverse
(`undoEntryStats`) that `undo_last_stat` applies.  (For counter entries
of value ≠ 1 and for plain "rebounds" entries the two handlers genuinely
differ, as the counterexample shows.) -/
theorem C5_undoAt_matches_undoLast (g : GameState) (i : Int) :
    ((i < 0 ∨ (g.stat_history.length : Int) ≤ i) →
      undo_specific_stat g i = .error .InvalidIndex) ∧
    (¬ (i < 0 ∨ (g.stat_history.length : Int) ≤ i) →
      ∀ e, e = g.stat_history.getD (g.stat_history.length - 1 - i.toNat)
          defaultEntry →
        eligibleEntry e →
        ∃ g', undo_specific_stat g i = .ok g' ∧
          g'.stat_history =
            g.stat_history.eraseIdx (g.stat_history.length - 1 - i.toNat) ∧
          g'.player_stats.map core =
            (updateFirstPlayer e.player_id
              (fun ps =>
                { ps with stats := undoEntryStats e.stat_type ps.stats })
              g.player_stats).map core) := by
  constructor
  · intro hout
    unfold undo_specific_stat
    rw [if_pos hout]
  · intro hin e he helig
    unfold undo_specific_stat
    rw [if_neg hin]
    refine ⟨_, rfl, rfl, ?_⟩
    rw [← he]
    apply updateFirstPlayer_map_core_congr
    intro ps
    simp only [core, undoSpecificPlayer]
    exact congrArg (Prod.mk ps.player_id)
      (undoSpecificStats_eq_undoEntryStats e.stat_type e.value ps.stats
        helig)

/-- C5 witness: undoAt 0 on a game whose single ledger entry is an
eligible (points_2) entry. -/
theorem C5_undoAt_matches_undoLast_witness :
    ∃ g', undo_specific_stat gPts2 0 = .ok g' ∧
      g'.stat_history = gPts2.stat_history.eraseIdx
        (gPts2.stat_history.length - 1 - (0 : Int).toNat) ∧
      g'.player_stats.map core =
        (updateFirstPlayer "p1"
          (fun ps => { ps with stats := undoEntryStats "points_2" ps.stats })
          gPts2.player_stats).map core :=
  (C5_undoAt_matches_undoLast gPts2 0).2 (by decide)
    ⟨"p1", "points_2", 1, none, none⟩ (by decide) (by decide)

theorem applyStats_nonneg (t : String) (v : Int) (s : PlayerStats)
    (hs : nonnegStats s)
    (hv : t ∈ (["rebounds", "offensive_rebounds", "defensive_rebounds",
      "assists", "steals", "blocks", "turnovers", "fouls", "minutes"] :
      List String) → 0 ≤ v) :
    nonnegStats (applyStats t v s) := by
  by_cases hk : t ∈ knownKinds
  · simp only [knownKinds, List.mem_cons, List.not_mem_nil, or_false]
      at hk
    rcases hk with h|h|h|h|h|h|h|h|h|h|h|h|h|h|h|h <;> subst h <;>
      (try have hv' := hv (by decide)) <;>
      simp [applyStats, addCounter] <;>
      simp only [nonnegStats] at hs ⊢ <;>
      omega
  · rw [applyStats_unknown t v s hk]; exact hs

/-- The stat kinds `adjust_stat` recognizes. -/
def adjustKinds : List String :=
  ["points", "fg_made", "three_pt_made", "ft_made", "rebounds",
   "offensive_rebounds", "defensive_rebounds", "assists", "steals",
   "blocks", "turnovers", "fouls"]

theorem adjustStats_unknown (t : String) (adj : Int) (s : PlayerStats)
    (hk : t ∉ adjustKinds) : adjustStats t adj s = s := by
  have h1 : ¬ t = "points" := fun he => hk (by rw [he]; decide)
  have h2 : ¬ t = "fg_made" := fun he => hk (by rw [he]; decide)
  have h3 : ¬ t = "three_pt_made" := fun he => hk (by rw [he]; decide)
  have h4 : ¬ t = "ft_made" := fun he => hk (by rw [he]; decide)
  have hsub : ∀ a ∈ (["rebounds", "offensive_rebounds",
      "defensive_rebounds", "assists", "steals", "blocks", "turnovers",
      "fouls"] : List String), a ∈ adjustKinds := by decide
  have h5 : t ∉ (["rebounds", "offensive_rebounds", "defensive_rebounds",
      "assists", "steals", "blocks", "turnovers", "fouls"] :
      List String) := fun hm => hk (hsub t hm)
  unfold adjustStats
  rw [if_neg h1, if_neg h2, if_neg h3, if_neg h4, if_neg h5]

theorem adjustStats_nonneg (t : String) (adj : Int) (s : PlayerStats)
    (hs : nonnegStats s) : nonnegStats (adjustStats t adj s) := by
  by_cases hk : t ∈ adjustKinds
  · simp only [adjustKinds, List.mem_cons, List.not_mem_nil, or_false]
      at hk
    rcases hk with h|h|h|h|h|h|h|h|h|h|h|h <;> subst h <;>
      simp [adjustStats, adjustStats.addClampCounter] <;>
      (try split_ifs with hadj) <;>
      simp only [nonnegStats] at hs ⊢ <;>
      omega
  · rw [adjustStats_unknown t adj s hk]; exact hs

theorem undoEntryStats_unknown (t : String) (s : PlayerStats)
    (hk : t ∉ knownKinds) : undoEntryStats t s = s := by
  have h1 : ¬ t = "points_2" := fun he => hk (by rw [he]; decide)
  have h2 : ¬ t = "points_3" := fun he => hk (by rw [he]; decide)
  have h3 : ¬ t = "ft_made" := fun he => hk (by rw [he]; decide)
  have h4 : ¬ t = "ft_missed" := fun he => hk (by rw [he]; decide)
  have h5 : ¬ t = "miss_2" := fun he => hk (by rw [he]; decide)
  have h6 : ¬ t = "miss_3" := fun he => hk (by rw [he]; decide)
  have h7 := not_mem_counterKinds_of_not_known hk
  unfold undoEntryStats
  rw [if_neg h1, if_neg h2, if_neg h3, if_neg h4, if_neg h5, if_neg h6,
    if_neg h7]

theorem undoEntryStats_nonneg (t : String) (s : PlayerStats)
    (hs : nonnegStats s) : nonnegStats (undoEntryStats t s) := by
  by_cases hk : t ∈ knownKinds
  · simp only [knownKinds, List.mem_cons, List.not_mem_nil, or_false]
      at hk
    rcases hk with h|h|h|h|h|h|h|h|h|h|h|h|h|h|h|h <;> subst h <;>
      simp [undoEntryStats, subOneCounter] <;>
      simp only [nonnegStats] at hs ⊢ <;>
      omega
  · rw [undoEntryStats_unknown t s hk]; exact hs

theorem undoSpecificStats_unknown (t : String) (v : Int)
    (s : PlayerStats) (hk : t ∉ knownKinds) :
    undoSpecificStats t v s = s := by
  have hsub1 : ∀ a ∈ (["points_2", "miss_2"] : List String),
      a ∈ knownKinds := by decide
  have h1 : t ∉ (["points_2", "miss_2"] : List String) :=
    fun hm => hk (hsub1 t hm)
  have hsub2 : ∀ a ∈ (["points_3", "miss_3"] : List String),
      a ∈ knownKinds := by decide
  have h2 : t ∉ (["points_3", "miss_3"] : List String) :=
    fun hm => hk (hsub2 t hm)
  have h3 : ¬ t = "ft_made" := fun he => hk (by rw [he]; decide)
  have h4 : ¬ t = "ft_missed" := fun he => hk (by rw [he]; decide)
  have hsub5 : ∀ a ∈ (["offensive_rebounds", "defensive_rebounds"] :
      List String), a ∈ knownKinds := by decide
  have h5 : t ∉ (["offensive_rebounds", "defensive_rebounds"] :
      List String) := fun hm => hk (hsub5 t hm)
  have hsub6 : ∀ a ∈ (["assists", "steals", "blocks", "turnovers",
      "fouls"] : List String), a ∈ knownKinds := by decide
  have h6 : t ∉ (["assists", "steals", "blocks", "turnovers", "fouls"] :
      List String) := fun hm => hk (hsub6 t hm)
  unfold undoSpecificStats
  rw [if_neg h1, if_neg h2, if_neg h3, if_neg h4, if_neg h5, if_neg h6]

theorem undoSpecificStats_nonneg (t : String) (v : Int) (s : PlayerStats)
    (hs : nonnegStats s) : nonnegStats (undoSpecificStats t v s) := by
  by_cases hk : t ∈ knownKinds
  · simp only [knownKinds, List.mem_cons, List.not_mem_nil, or_false]
      at hk
    rcases hk with h|h|h|h|h|h|h|h|h|h|h|h|h|h|h|h <;> subst h <;>
      simp [undoSpecificStats, subValueCounter] <;>
      simp only [nonnegStats] at hs ⊢ <;>
      omega
  · rw [undoSpecificStats_unknown t v s hk]; exact hs

theorem deleteShotStats_nonneg (shot : Shot) (s : PlayerStats)
    (hs : nonnegStats s) : nonnegStats (deleteShotStats shot s) := by
  unfold deleteShotStats
  split_ifs <;> simp only [nonnegStats] at hs ⊢ <;> omega

theorem updateFirstPlayer_nonneg (pid : String)
    (f : GamePlayerStats → GamePlayerStats)
    (hf : ∀ ps, nonnegStats ps.stats → nonnegStats (f ps).stats) :
    ∀ l : List GamePlayerStats, (∀ ps ∈ l, nonnegStats ps.stats) →
      ∀ ps ∈ updateFirstPlayer pid f l, nonnegStats ps.stats := by
  intro l
  induction l with
  | nil => intro _ ps hps; cases hps
  | cons a t ih =>
    intro hl ps hps
    unfold updateFirstPlayer at hps
    split at hps
    · rcases List.mem_cons.mp hps with h | h
      · rw [h]; exact hf a (hl a (by simp))
      · exact hl ps (List.mem_cons_of_mem a h)
    · rcases List.mem_cons.mp hps with h | h
      · rw [h]; exact hl a (by simp)
      · exact ih (fun q hq => hl q (List.mem_cons_of_mem a hq)) ps h

theorem record_stat_nonneg (g : GameState) (stat : StatUpdate)
    (g' : GameState)
    (hval : stat.stat_type ∈ (["rebounds", "offensive_rebounds",
      "defensive_rebounds", "assists", "steals", "blocks", "turnovers",
      "fouls", "minutes"] : List String) → 0 ≤ stat.value)
    (hg : nonnegGame g)
    (h : record_stat g stat = .ok g') : nonnegGame g' := by
  unfold record_stat at h
  rcases hrec : recordLoop stat g.current_period g.next_id g.player_stats
    with _ | ⟨pstats, sid, nid2⟩
  · rw [hrec] at h; cases h
  · rw [hrec] at h
    simp only [Except.ok.injEq] at h
    subst h
    obtain ⟨pre, ps, post, he1, _, _, he4, _, _⟩ :=
      recordLoop_inv _ _ _ _ _ _ _ hrec
    intro q hq
    simp only at hq
    rw [he4] at hq
    rcases List.mem_append.mp hq with hq | hq
    · exact hg q (by rw [he1]; exact List.mem_append_left _ hq)
    · rcases List.mem_cons.mp hq with hq | hq
      · subst hq
        rw [applyStatToPlayer_stats]
        exact applyStats_nonneg _ _ _
          (hg ps (by rw [he1]; exact List.mem_append_right _ (by simp)))
          hval
      · exact hg q
          (by rw [he1]
              exact List.mem_append_right _ (List.mem_cons_of_mem ps hq))

theorem adjust_stat_nonneg (g : GameState) (pid t : String) (d : Int)
    (g' : GameState) (hg : nonnegGame g)
    (h : adjust_stat g pid t d = .ok g') : nonnegGame g' := by
  unfold adjust_stat at h
  split at h
  · cases h
    intro q hq
    exact updateFirstPlayer_nonneg pid _
      (fun ps hps => adjustStats_nonneg t d ps.stats hps)
      g.player_stats hg q hq
  · cases h

theorem undo_last_stat_nonneg (g : GameState) (g' : GameState)
    (hg : nonnegGame g) (h : undo_last_stat g = .ok g') :
    nonnegGame g' := by
  unfold undo_last_stat at h
  split at h
  · cases h
  · cases h
    intro q hq
    refine updateFirstPlayer_nonneg _ _
      (fun ps hps => ?_) g.player_stats hg q hq
    exact undoEntryStats_nonneg _ _ hps

theorem undo_specific_stat_nonneg (g : GameState) (i : Int)
    (g' : GameState) (hg : nonnegGame g)
    (h : undo_specific_stat g i = .ok g') : nonnegGame g' := by
  unfold undo_specific_stat at h
  split at h
  · cases h
  · cases h
    intro q hq
    refine updateFirstPlayer_nonneg _ _
      (fun ps hps => ?_) g.player_stats hg q hq
    exact undoSpecificStats_nonneg _ _ _ hps

theorem deleteShotLoop_nonneg (pid : String) (i : Int) :
    ∀ l l2 : List GamePlayerStats,
      (∀ ps ∈ l, nonnegStats ps.stats) →
      deleteShotLoop pid i l = .ok l2 →
      ∀ ps ∈ l2, nonnegStats ps.stats := by
  intro l
  induction l with
  | nil =>
    intro l2 _ h ps hps
    cases h; cases hps
  | cons a t ih =>
    intro l2 hl h
    by_cases ha : a.player_id = pid
    · simp only [deleteShotLoop, ha, if_true, if_pos] at h
      split at h
      · cases h
      · cases h
        intro ps hps
        rcases List.mem_cons.mp hps with hq | hq
        · rw [hq]
          exact deleteShotStats_nonneg _ _ (hl a (by simp))
        · exact hl ps (List.mem_cons_of_mem a hq)
    · simp only [deleteShotLoop, ha, if_neg, not_false_iff] at h
      rcases hrec : deleteShotLoop pid i t with e | t2
      · rw [hrec] at h; cases h
      · rw [hrec] at h
        cases h
        intro ps hps
        rcases List.mem_cons.mp hps with hq | hq
        · rw [hq]; exact hl a (by simp)
        · exact ih t2 (fun q hq2 => hl q (List.mem_cons_of_mem a hq2))
            hrec ps hq

theorem delete_shot_nonneg (g : GameState) (pid : String) (i : Int)
    (g' : GameState) (hg : nonnegGame g)
    (h : delete_shot g pid i = .ok g') : nonnegGame g' := by
  unfold delete_shot at h
  split at h
  · cases h
  · rename_i pstats hloop
    cases h
    intro q hq
    exact deleteShotLoop_nonneg pid i g.player_stats pstats hg hloop q hq

/-- The precondition of the amended C4: apply requests carry a
nonnegative value (the other operations are unrestricted). -/
def opValuesNonneg : Op → Prop
  | .apply s => 0 ≤ s.value
  | _ => True

instance (op : Op) : Decidable (opValuesNonneg op) := by
  cases op <;> simp only [opValuesNonneg] <;> infer_instance

theorem runOp_nonneg (g : GameState) (op : Op)
    (hop : opValuesNonneg op) (hg : nonnegGame g) :
    nonnegGame (match runOp g op with
      | .ok g2 => g2
      | .error _ => g) := by
  cases op with
  | apply s =>
    simp only [runOp]
    rcases h : record_stat g s with e | g2
    · exact hg
    · exact record_stat_nonneg g s g2 (fun _ => hop) hg h
  | adjust pid t d =>
    simp only [runOp]
    rcases h : adjust_stat g pid t d with e | g2
    · exact hg
    · exact adjust_stat_nonneg g pid t d g2 hg h
  | undoLast =>
    simp only [runOp]
    rcases h : undo_last_stat g with e | g2
    · exact hg
    · exact undo_last_stat_nonneg g g2 hg h
  | undoAt i =>
    simp only [runOp]
    rcases h : undo_specific_stat g i with e | g2
    · exact hg
    · exact undo_specific_stat_nonneg g i g2 hg h
  | deleteShot pid i =>
    simp only [runOp]
    rcases h : delete_shot g pid i with e | g2
    · exact hg
    · exact delete_shot_nonneg g pid i g2 hg h

theorem runOps_nonneg (ops : List Op) :
    ∀ g : GameState, (∀ op ∈ ops, opValuesNonneg op) → nonnegGame g →
      nonnegGame (runOps g ops) := by
  induction ops with
  | nil => intro g _ hg; exact hg
  | cons op rest ih =>
    intro g hops hg
    have hstep := runOp_nonneg g op (hops op (by simp)) hg
    unfold runOps
    rcases h : runOp g op with e | g2
    · rw [h] at hstep
      exact ih g (fun o ho => hops o (List.mem_cons_of_mem op ho)) hstep
    · rw [h] at hstep
      exact ih g2 (fun o ho => hops o (List.mem_cons_of_mem op ho)) hstep

theorem initGame_nonneg (roster : List (String × String)) :
    nonnegGame (initGame roster) := by
  intro ps hps
  rw [initGame] at hps
  simp only [List.mem_map] at hps
  obtain ⟨r, _, rfl⟩ := hps
  change nonnegStats ({} : PlayerStats)
  decide

/-- C4 amended: starting from a freshly created game (all box scores
zeroed), any sequence of engine operations in which every apply request
carries a nonnegative value keeps every counter other than plus_minus
nonnegative (the original claim, with no restriction on apply values, is
refuted by the counterexample: the apply counter branch does not
clamp). -/
theorem C4_no_negative_counters (roster : List (String × String))
    (ops : List Op) (hops : ∀ op ∈ ops, opValuesNonneg op) :
    nonnegGame (runOps (initGame roster) ops) :=
  runOps_nonneg ops (initGame roster) hops (initGame_nonneg roster)

/-- C4 witness: a mixed concrete run — apply, undo, negative adjust,
out-of-range undoAt, delete on an absent player. -/
theorem C4_no_negative_counters_witness :
    nonnegGame (runOps (initGame [("p1", "P One"), ("p2", "P Two")])
      [.apply ⟨"p1", "points_2", 1, some (10, 20)⟩,
       .apply ⟨"p1", "rebounds", 1, none⟩,
       .adjust "p1" "fg_made" (-5),
       .undoLast,
       .undoAt 7,
       .deleteShot "zz" 0]) :=
  C4_no_negative_counters _ _ (by decide)

/-- The apply requests whose effect `undo_last_stat` inverts exactly: the
shot and free-throw kinds (whose branches ignore `value`), and the simple
counter kinds with value 1 (undo subtracts 1).  plus_minus and minutes
are excluded: their ledger entries are popped without any reversal. -/
def goodStat (s : StatUpdate) : Prop :=
  s.stat_type ∈ (["points_2", "points_3", "ft_made", "ft_missed",
    "miss_2", "miss_3"] : List String) ∨
  (s.stat_type ∈ (["rebounds", "offensive_rebounds",
    "defensive_rebounds", "assists", "steals", "blocks", "turnovers",
    "fouls"] : List String) ∧ s.value = 1)

instance (s : StatUpdate) : Decidable (goodStat s) := by
  unfold goodStat; infer_instance

theorem applyStats_inverse (t : String) (v : Int) (s : PlayerStats)
    (hs : nonnegStats s)
    (hgood : t ∈ (["points_2", "points_3", "ft_made", "ft_missed",
        "miss_2", "miss_3"] : List String) ∨
      (t ∈ (["rebounds", "offensive_rebounds", "defensive_rebounds",
        "assists", "steals", "blocks", "turnovers", "fouls"] :
        List String) ∧ v = 1)) :
    undoEntryStats t (applyStats t v s) = s := by
  simp only [nonnegStats] at hs
  rcases hgood with hm | ⟨hm, hv⟩
  · simp only [List.mem_cons, List.not_mem_nil, or_false] at hm
    rcases hm with h|h|h|h|h|h <;> subst h <;>
      simp [applyStats, undoEntryStats] <;>
      ext <;> simp <;> omega
  · subst hv
    simp only [List.mem_cons, List.not_mem_nil, or_false] at hm
    rcases hm with h|h|h|h|h|h|h|h <;> subst h <;>
      simp [applyStats, undoEntryStats, addCounter, subOneCounter] <;>
      ext <;> simp <;> omega

theorem record_stat_score (g : GameState) (stat : StatUpdate)
    (g' : GameState) (h : record_stat g stat = .ok g') :
    g'.our_score = sumPoints g'.player_stats := by
  unfold record_stat at h
  split at h
  · cases h
  · cases h; rfl

theorem updateFirstPlayer_map_core_of_eq (pid : String)
    (f : GamePlayerStats → GamePlayerStats)
    (fS : PlayerStats → PlayerStats)
    (hf : ∀ ps, core (f ps) = (ps.player_id, fS ps.stats)) :
    ∀ l1 l2 : List GamePlayerStats, l1.map core = l2.map core →
      (updateFirstPlayer pid f l1).map core =
        (updateFirstPlayer pid f l2).map core := by
  intro l1
  induction l1 with
  | nil => intro l2 h; cases l2 <;> simp_all
  | cons a t ih =>
    intro l2 h
    cases l2 with
    | nil => simp at h
    | cons b t2 =>
      simp only [List.map_cons, List.cons.injEq, core, Prod.mk.injEq]
        at h
      obtain ⟨⟨hid, hstats⟩, htail⟩ := h
      by_cases ha : a.player_id = pid
      · unfold updateFirstPlayer
        rw [if_pos ha, if_pos (by rw [← hid]; exact ha)]
        simp only [List.map_cons, hf a, hf b, hid, hstats, htail]
      · unfold updateFirstPlayer
        rw [if_neg ha, if_neg (by rw [← hid]; exact ha)]
        simp only [List.map_cons, ih t2 htail]
        simp [core, hid, hstats]

theorem undoN_succ_right (n : Nat) :
    ∀ g : GameState, undoN (n + 1) g = (undoN n g).bind undo_last_stat := by
  induction n with
  | zero =>
    intro g
    cases hu : undo_last_stat g <;> simp [undoN, hu, Except.bind]
  | succ n ih =>
    intro g
    cases hu : undo_last_stat g with
    | error e => simp [undoN, hu, Except.bind]
    | ok h =>
      calc undoN (n + 1 + 1) g = undoN (n + 1) h := by
            simp [undoN, hu, Except.bind]
        _ = (undoN n h).bind undo_last_stat := ih h
        _ = (undoN (n + 1) g).bind undo_last_stat := by
            simp [undoN, hu, Except.bind]

theorem undo_after_record (g : GameState) (e : StatUpdate)
    (g1 a : GameState)
    (hrec : record_stat g e = .ok g1) (hgood : goodStat e)
    (hnn : nonnegGame g)
    (hcore : a.player_stats.map core = g1.player_stats.map core)
    (hhist : a.stat_history = g1.stat_history) :
    ∃ b, undo_last_stat a = .ok b ∧
      b.player_stats.map core = g.player_stats.map core ∧
      b.stat_history = g.stat_history ∧
      b.our_score = sumPoints g.player_stats := by
  unfold record_stat at hrec
  rcases hrec2 : recordLoop e g.current_period g.next_id g.player_stats
    with _ | ⟨pstats, sid, nid2⟩
  · rw [hrec2] at hrec; cases hrec
  · rw [hrec2] at hrec
    simp only [Except.ok.injEq] at hrec
    obtain ⟨pre, ps, post, he1, he2, he3, he4, _, _⟩ :=
      recordLoop_inv _ _ _ _ _ _ _ hrec2
    subst hrec
    dsimp only at hcore hhist
    have hsps : nonnegStats ps.stats :=
      hnn ps (by rw [he1]; exact List.mem_append_right _ (by simp))
    have hhead : core (undoLastPlayer
        ⟨e.player_id, e.stat_type, e.value, sid, none⟩
        (applyStatToPlayer e g.current_period g.next_id ps).1) =
        core ps := by
      have h1 : core (undoLastPlayer
          ⟨e.player_id, e.stat_type, e.value, sid, none⟩
          (applyStatToPlayer e g.current_period g.next_id ps).1) =
          ((applyStatToPlayer e g.current_period g.next_id ps).1.player_id,
           undoEntryStats e.stat_type
             (applyStatToPlayer e g.current_period g.next_id ps).1.stats) :=
        rfl
      rw [h1, applyStatToPlayer_player_id, applyStatToPlayer_stats,
        applyStats_inverse e.stat_type e.value ps.stats hsps hgood]
      rfl
    have hA : (updateFirstPlayer e.player_id
        (undoLastPlayer ⟨e.player_id, e.stat_type, e.value, sid, none⟩)
        a.player_stats).map core = g.player_stats.map core := by
      have hstep := updateFirstPlayer_map_core_of_eq e.player_id
        (undoLastPlayer ⟨e.player_id, e.stat_type, e.value, sid, none⟩)
        (undoEntryStats e.stat_type) (fun q => rfl)
        a.player_stats pstats hcore
      rw [hstep, he4,
        updateFirstPlayer_decomp _ _ _ _ _ he2
          (by rw [applyStatToPlayer_player_id]; exact he3),
        he1]
      simp only [List.map_append, List.map_cons, hhead]
    unfold undo_last_stat
    rw [hhist, List.getLast?_concat]
    exact ⟨_, rfl, hA, List.dropLast_concat, sumPoints_eq_of_core hA⟩

theorem applyAll_round_trip (es : List StatUpdate) :
    ∀ g0 gn : GameState, (∀ s ∈ es, goodStat s) → nonnegGame g0 →
      scoreInv g0 → applyAll g0 es = .ok gn →
      ∃ g', undoN es.length gn = .ok g' ∧
        g'.player_stats.map core = g0.player_stats.map core ∧
        g'.stat_history = g0.stat_history ∧
        g'.our_score = g0.our_score := by
  induction es with
  | nil =>
    intro g0 gn _ _ _ happ
    cases happ
    exact ⟨g0, rfl, rfl, rfl, rfl⟩
  | cons e es ih =>
    intro g0 gn hgood hnn hscore happ
    rcases hrec : record_stat g0 e with err | g1
    · simp only [applyAll, hrec, Except.bind] at happ
      cases happ
    · simp only [applyAll, hrec, Except.bind] at happ
      have hge := hgood e (by simp)
      have hv : e.stat_type ∈ (["rebounds", "offensive_rebounds",
          "defensive_rebounds", "assists", "steals", "blocks",
          "turnovers", "fouls", "minutes"] : List String) →
          0 ≤ e.value := by
        intro hmem
        rcases hge with hm | ⟨_, hv1⟩
        · exfalso
          have hdisj : ∀ x ∈ (["points_2", "points_3", "ft_made",
              "ft_missed", "miss_2", "miss_3"] : List String),
              x ∉ (["rebounds", "offensive_rebounds",
              "defensive_rebounds", "assists", "steals", "blocks",
              "turnovers", "fouls", "minutes"] : List String) := by
            decide
          exact hdisj _ hm hmem
        · omega
      have hnn1 : nonnegGame g1 := record_stat_nonneg g0 e g1 hv hnn hrec
      have hscore1 : scoreInv g1 := record_stat_score g0 e g1 hrec
      obtain ⟨g1', hu, hco, hhi, _⟩ := ih g1 gn
        (fun s hs => hgood s (List.mem_cons_of_mem e hs)) hnn1 hscore1
        happ
      obtain ⟨b, hb, hbc, hbh, hbo⟩ :=
        undo_after_record g0 e g1 g1' hrec hge hnn hco hhi
      refine ⟨b, ?_, hbc, hbh, ?_⟩
      · show undoN (es.length + 1) gn = .ok b
        rw [undoN_succ_right es.length gn, hu]
        exact hb
      · rw [hbo]; exact hscore.symm

/-- C1 amended: the round-trip law holds for apply sequences of
undo-invertible requests — shot and free-throw kinds with any value,
simple counter kinds with value 1 (plus_minus and minutes excluded, as
`undo_last_stat` has no branch for them) — from any initial state whose
clamped counters are nonnegative and whose team score satisfies the
derived-score invariant: applying the sequence and then calling undoLast
the same number of times restores every player's box score and the team
score.  (The claim as stated, over every kind and value, is refuted by
the counterexample.) -/
theorem C1_round_trip (g0 : GameState) (es : List StatUpdate)
    (gn : GameState)
    (hgood : ∀ s ∈ es, goodStat s) (hnn : nonnegGame g0)
    (hscore : scoreInv g0) (happ : applyAll g0 es = .ok gn) :
    ∃ g', undoN es.length gn = .ok g' ∧
      g'.player_stats.map (fun ps => ps.stats) =
        g0.player_stats.map (fun ps => ps.stats) ∧
      g'.our_score = g0.our_score := by
  obtain ⟨g', hu, hco, _, hsc⟩ :=
    applyAll_round_trip es g0 gn hgood hnn hscore happ
  refine ⟨g', hu, ?_, hsc⟩
  have hmap := congrArg (List.map Prod.snd) hco
  simpa [core, Function.comp] using hmap

/-- The game after apply(p1, made_3 at (30,70)) on the two-player
fixture. -/
def gMade3 : GameState :=
  { player_stats :=
      [{ player_id := "p1", player_name := "P One",
         stats := { points := 3, fg_made := 1, fg_attempted := 1,
                    three_pt_made := 1, three_pt_attempted := 1 },
         shots := [⟨0, 30, 70, true, "3pt", 1⟩],
         stat_events := [] }, p2Zero],
    stat_history := [⟨"p1", "points_3", 1, some 0, none⟩],
    our_score := 3,
    current_period := 1,
    next_id := 1 }

/-- C1 witness: the spec's made-three scenario, one apply then one undo
on the zeroed two-player roster. -/
theorem C1_round_trip_witness :
    ∃ g', undoN 1 gMade3 = .ok g' ∧
      g'.player_stats.map (fun ps => ps.stats) =
        exGame.player_stats.map (fun ps => ps.stats) ∧
      g'.our_score = exGame.our_score :=
  C1_round_trip exGame [⟨"p1", "points_3", 1, some (30, 70)⟩] gMade3
    (by decide) (by decide) (by decide) (by decide)

end Hoopstats
